import Mathlib

/-!
Shallow embedding of `app.py` (locationews): a Streamlit page that builds a
Google News RSS search URL from a place name plus a fixed disjunction of
event keywords, fetches the feed, deduplicates entries by link, and renders
up to a bounded number of rows.

Modelling conventions:
* the wall clock is passed explicitly as `now : Int`, the POSIX epoch second
  at which the request runs;
* the process's local timezone (consulted by Python's `time.mktime`) is a
  fixed offset `off : Int` in seconds east of UTC, passed explicitly;
* the network is an oracle `feed : String -> List Entry` mapping the request
  URL to the parsed feed entries (`feedparser.parse(url).entries`);
* Python `None` is `Option.none`; a feed entry is a record of optional
  fields, mirroring `e.get(...)` with its defaults;
* calendar arithmetic (`datetime.date`, `timedelta`, `isoformat`,
  `strftime`) is modelled with the standard civil-from-days/days-from-civil
  algorithms over `Int` day numbers since the epoch.
-/

namespace Locationews

/-- Civil date from a day count since 1970-01-01 (proleptic Gregorian),
returning `(year, month, day)`.  Models `datetime.date.fromtimestamp` style
conversions used by the `datetime` library. -/
def civilFromDays (z : Int) : Int × Int × Int :=
  let z' := z + 719468
  let era := Int.ediv z' 146097
  let doe := z' - era * 146097
  let yoe := Int.ediv (doe - Int.ediv doe 1460 + Int.ediv doe 36524 - Int.ediv doe 146096) 365
  let y := yoe + era * 400
  let doy := doe - (365 * yoe + Int.ediv yoe 4 - Int.ediv yoe 100)
  let mp := Int.ediv (5 * doy + 2) 153
  let d := doy - Int.ediv (153 * mp + 2) 5 + 1
  let m := mp + (if mp < 10 then 3 else -9)
  (y + (if m ≤ 2 then 1 else 0), m, d)

/-- Day count since 1970-01-01 of a civil date.  Models the `datetime`
library's conversion of a calendar date to a timestamp. -/
def daysFromCivil (y m d : Int) : Int :=
  let y' := y - (if m ≤ 2 then 1 else 0)
  let era := Int.ediv y' 400
  let yoe := y' - era * 400
  let mp := Int.emod (m + 9) 12
  let doy := Int.ediv (153 * mp + 2) 5 + d - 1
  let doe := yoe * 365 + Int.ediv yoe 4 - Int.ediv yoe 100 + doy
  era * 146097 + doe - 719468

/-- Two-digit zero padding, as in `isoformat`/`strftime` fields. -/
def pad2 (n : Int) : String :=
  (if n < 10 then "0" else "") ++ toString n

/-- Four-digit zero padding for years. -/
def pad4 (n : Int) : String :=
  (if n < 10 then "000" else if n < 100 then "00" else if n < 1000 then "0" else "") ++
    toString n

/-- `date.isoformat()` of the day numbered `z`: `YYYY-MM-DD`. -/
def dayToIso (z : Int) : String :=
  let c := civilFromDays z
  pad4 c.1 ++ "-" ++ pad2 c.2.1 ++ "-" ++ pad2 c.2.2

/-- The JST offset in seconds: `JST = timezone(timedelta(hours=9))`. -/
def jstOffset : Int := 32400

/-- The JST calendar day (as a day count) of the instant `now`:
`datetime.now(JST).date()`. -/
def jstDay (now : Int) : Int := Int.ediv (now + jstOffset) 86400

/-- `xdaysago(x)`: `(datetime.now(JST).date() - timedelta(days=x)).isoformat()`,
the JST date `x` days ago (`x < 0` reaches into the future). -/
def xdaysago (now : Int) (x : Int) : String := dayToIso (jstDay now - x)

/-- A `time.struct_time` as produced by feedparser's `published_parsed`
(only the six calendar fields matter to this program). -/
structure TimeStruct where
  year : Int
  month : Int
  day : Int
  hour : Int
  minute : Int
  sec : Int
deriving DecidableEq, Repr

/-- The epoch second of a `TimeStruct` read as a UTC civil time. -/
def structToEpoch (tt : TimeStruct) : Int :=
  daysFromCivil tt.year tt.month tt.day * 86400 +
    tt.hour * 3600 + tt.minute * 60 + tt.sec

/-- `strftime("%Y-%m-%d %H:%M")` of an absolute instant displayed in JST. -/
def fmtJstMinute (dt : Int) : String :=
  let s := dt + jstOffset
  let z := Int.ediv s 86400
  let sod := Int.emod s 86400
  let c := civilFromDays z
  pad4 c.1 ++ "-" ++ pad2 c.2.1 ++ "-" ++ pad2 c.2.2 ++ " " ++
    pad2 (Int.ediv sod 3600) ++ ":" ++ pad2 (Int.emod (Int.ediv sod 60) 60)

/-- The `source` attribute of a feed entry as a Python value: either a dict
(whose `"title"` key may be absent) or some non-dict value. -/
inductive PySource where
  | dict (title : Option String)
  | nondict
deriving DecidableEq, Repr

/-- One parsed feed entry; each field is `none` when the corresponding key
is absent from the entry. -/
structure Entry where
  link : Option String
  title : Option String
  source : Option PySource
  published : Option TimeStruct
deriving DecidableEq, Repr

/-- `e.get("link", "")`. -/
def getLink (e : Entry) : String := e.link.getD ""

/-- Codepoints Python's `str.strip()` removes (the `str.isspace()` set). -/
def pySpaceCodes : List Nat :=
  [9, 10, 11, 12, 13, 28, 29, 30, 31, 32, 0x85, 0xA0, 0x1680,
   0x2000, 0x2001, 0x2002, 0x2003, 0x2004, 0x2005, 0x2006, 0x2007,
   0x2008, 0x2009, 0x200A, 0x2028, 0x2029, 0x202F, 0x205F, 0x3000]

/-- Whether `str.strip()` treats `c` as whitespace. -/
def isPySpace (c : Char) : Bool := c.toNat ∈ pySpaceCodes

/-- Python's `s.strip()`: drop leading and trailing whitespace. -/
def pyStrip (s : String) : String :=
  ⟨((s.data.dropWhile isPySpace).reverse.dropWhile isPySpace).reverse⟩

/-- UTF-8 bytes of one character, as `urllib` encodes non-ASCII input. -/
def utf8Bytes (c : Char) : List Nat :=
  let n := c.toNat
  if n < 0x80 then [n]
  else if n < 0x800 then [0xC0 + n / 0x40, 0x80 + n % 0x40]
  else if n < 0x10000 then
    [0xE0 + n / 0x1000, 0x80 + n / 0x40 % 0x40, 0x80 + n % 0x40]
  else
    [0xF0 + n / 0x40000, 0x80 + n / 0x1000 % 0x40, 0x80 + n / 0x40 % 0x40,
     0x80 + n % 0x40]

/-- Uppercase hex digit, as `urllib.parse.quote` emits. -/
def hexDigitChar (n : Nat) : Char :=
  if n < 10 then Char.ofNat (48 + n) else Char.ofNat (55 + n)

/-- Percent-encoding `%XX` of one byte. -/
def pctByte (b : Nat) : List Char :=
  ['%', hexDigitChar (b / 16), hexDigitChar (b % 16)]

/-- Characters `urllib.parse.quote_plus` passes through unencoded
(ASCII letters, digits, `_`, `.`, `-`, `~`). -/
def isAlwaysSafe (c : Char) : Bool :=
  let n := c.toNat
  (65 ≤ n && n ≤ 90) || (97 ≤ n && n ≤ 122) || (48 ≤ n && n ≤ 57) ||
    n == 95 || n == 46 || n == 45 || n == 126

/-- Encoding of a single character under `quote_plus`. -/
def quotePlusChar (c : Char) : List Char :=
  if isAlwaysSafe c then [c]
  else if c = ' ' then ['+']
  else (utf8Bytes c).flatMap pctByte

/-- `urllib.parse.quote_plus(s)`: spaces become `+`, unsafe characters are
percent-encoded through UTF-8. -/
def quote_plus (s : String) : String := ⟨s.data.flatMap quotePlusChar⟩

/-- `EVENT_TERMS`: the hardcoded event-keyword disjunction. -/
def EVENT_TERMS : String :=
  "イベント OR 開催 OR オープン OR 祭り OR 体験会 OR フェス OR 展示会 OR 展"

/-- `build_query(place)`: strip the place and wrap it with the event terms
as `(place) AND (EVENT_TERMS)`. -/
def build_query (place : String) : String :=
  let place := pyStrip place
  "(" ++ place ++ ") AND (" ++ EVENT_TERMS ++ ")"

/-- `_published_to_jst(entry)` under a process-local timezone that is a fixed
offset `off` seconds east of UTC (no DST).  The source computes
`epoch = time.mktime(tt)` — `mktime` reads `tt` as LOCAL civil time, so
`epoch = structToEpoch tt - off` — then
`datetime.utcfromtimestamp(epoch).replace(tzinfo=utc).astimezone(JST)`,
i.e. the absolute instant `epoch` viewed in JST.  We return that absolute
instant (a timezone-aware datetime is just an instant); `none` models both
the missing/falsy `published_parsed` branch and the `except` branch. -/
def _published_to_jst (off : Int) (e : Entry) : Option Int :=
  match e.published with
  | none => none
  | some tt => some (structToEpoch tt - off)

/-- The `source` extraction of `google_news_to_table`:
`src = e.get("source", {}); source = src.get("title") if isinstance(src, dict) else ""`.
A missing attribute defaults to the empty dict `{}` — a dict — whose
`.get("title")` is Python `None`. -/
def source_of (e : Entry) : Option String :=
  match e.source with
  | none => none
  | some (.dict t) => t
  | some .nondict => some ""

/-- One emitted table row (one `Article`).  `source` is `Option String`
because the Python value stored there can be `None`. -/
structure Row where
  title : String
  source : Option String
  published_jst : String
  link : String
deriving DecidableEq, Repr

/-- The dict appended to `rows` for one surviving entry `e`. -/
def mkRow (off : Int) (e : Entry) : Row :=
  { title := e.title.getD ""
  , source := source_of e
  , published_jst :=
      match _published_to_jst off e with
      | some dt => fmtJstMinute dt
      | none => ""
  , link := getLink e }

/-- The loop body of `google_news_to_table`: walk the (already truncated)
entry list, skipping entries whose link is empty or already in `seen`, and
append a row for each survivor. -/
def gnttAux (off : Int) (seen : List String) : List Entry → List Row
  | [] => []
  | e :: es =>
    if getLink e = "" ∨ getLink e ∈ seen then gnttAux off seen es
    else mkRow off e :: gnttAux off (getLink e :: seen) es

/-- `google_news_to_table(rss_url, limit)` applied to the entries the feed
oracle returned for the URL: iterate `fp.entries[:limit]`, deduplicate by
link, and emit the rows in encounter order. -/
def google_news_to_table (off : Int) (entries : List Entry) (limit : Nat) : List Row :=
  gnttAux off [] (entries.take limit)

/-- The triple `(df, rss_url, query)` returned by `q_to_tb`. -/
structure QtbResult where
  df : List Row
  rss_url : String
  query : String
deriving DecidableEq, Repr

/-- `q_to_tb(place, add)`: build the dates and query, assemble the RSS URL,
fetch/parse via the oracle, and keep `df.iloc[:20]`. -/
def q_to_tb (off : Int) (feed : String → List Entry) (now : Int)
    (place : String) (add : String) : QtbResult :=
  let yesterday := xdaysago now 1
  let tomorrow := xdaysago now (-1)
  let query := build_query place
  let q_param := "after:" ++ yesterday ++ "+before:" ++ tomorrow ++ "+" ++ quote_plus query
  let rss_url := "https://news.google.com/rss/search?q=" ++ q_param ++
    "&hl=ja&gl=JP&ceid=JP:ja" ++ add
  let df := (google_news_to_table off (feed rss_url) 50).take 20
  ⟨df, rss_url, query⟩

/-- Observable outcome of the `if run:` handler at the bottom of `app.py`. -/
inductive UIOutcome where
  | idle
  | warned
  | noResults (rss_url : String)
  | results (shown : List Row) (rss_url : String) (actual_query : String)
deriving DecidableEq, Repr

/-- The `if run:` block: warn and stop on a blank place, report no results
on an empty table, otherwise display `df.head(max_rows)` together with the
URL and query actually used.  `q_to_tb` is called with `add` defaulted. -/
def run_handler (off : Int) (feed : String → List Entry) (now : Int)
    (run : Bool) (place : String) (max_rows : Nat) : UIOutcome :=
  if run then
    if pyStrip place = "" then .warned
    else
      let r := q_to_tb off feed now place ""
      if r.df = [] then .noResults r.rss_url
      else .results (r.df.take max_rows) r.rss_url r.query
  else .idle

/-- The request-URL template exactly as the spec states it (§6):
`https://news.google.com/rss/search?q=after:<dateFrom>+before:<dateTo>+<url-encoded boolean expression>&hl=ja&gl=JP&ceid=JP:ja`.
Written from the spec's words, to be compared with the URL `q_to_tb`
builds. -/
def specRequestUrl (dateFrom dateTo boolExpr : String) : String :=
  "https://news.google.com/rss/search?q=" ++
    ("after:" ++ dateFrom ++ "+before:" ++ dateTo ++ "+" ++ quote_plus boolExpr) ++
    "&hl=ja&gl=JP&ceid=JP:ja"

/-- The spec's eight event terms (§8 end-to-end example), written from the
spec's words, to be compared with the hardcoded `EVENT_TERMS` string. -/
def specEventTermsList : List String :=
  ["イベント", "開催", "オープン", "祭り", "体験会", "フェス", "展示会", "展"]

/-- The row built for an entry carries the entry's (defaulted) link. -/
theorem mkRow_link (off : Int) (e : Entry) : (mkRow off e).link = getLink e := rfl

/-- Appending the empty string on the right is the identity. -/
theorem string_append_empty (s : String) : s ++ "" = s := by
  cases s with
  | mk data => exact congrArg String.mk (List.append_nil data)

/-- Every row the dedup loop emits has a link that is neither empty nor
already in `seen`. -/
theorem gnttAux_link_prop (off : Int) (l : List Entry) :
    ∀ seen r, r ∈ gnttAux off seen l → r.link ∉ seen ∧ r.link ≠ "" := by
  induction l with
  | nil => intro seen r h; simp [gnttAux] at h
  | cons e es ih =>
    intro seen r h
    by_cases hc : getLink e = "" ∨ getLink e ∈ seen
    · rw [gnttAux, if_pos hc] at h
      exact ih seen r h
    · rw [gnttAux, if_neg hc] at h
      push_neg at hc
      rcases List.mem_cons.mp h with h1 | h2
      · subst h1
        exact ⟨hc.2, hc.1⟩
      · have h3 := ih (getLink e :: seen) r h2
        exact ⟨fun hs => h3.1 (List.mem_cons_of_mem _ hs), h3.2⟩

/-- The links of the emitted rows are pairwise distinct. -/
theorem gnttAux_nodup (off : Int) (l : List Entry) :
    ∀ seen, ((gnttAux off seen l).map Row.link).Nodup := by
  induction l with
  | nil => intro seen; simp [gnttAux]
  | cons e es ih =>
    intro seen
    by_cases hc : getLink e = "" ∨ getLink e ∈ seen
    · rw [gnttAux, if_pos hc]; exact ih seen
    · rw [gnttAux, if_neg hc]
      simp only [List.map_cons, List.nodup_cons]
      refine ⟨?_, ih _⟩
      intro hmem
      rcases List.mem_map.mp hmem with ⟨r, hr, hlink⟩
      have h3 := gnttAux_link_prop off es (getLink e :: seen) r hr
      have : r.link ∈ getLink e :: seen := by
        rw [hlink, mkRow_link]
        exact List.mem_cons_self _ _
      exact h3.1 this

/-- The emitted rows are, in order, a sublist of all rows the considered
entries would map to: encounter order is preserved. -/
theorem gnttAux_sublist (off : Int) (l : List Entry) :
    ∀ seen, List.Sublist (gnttAux off seen l) (l.map (mkRow off)) := by
  induction l with
  | nil => intro seen; simp [gnttAux]
  | cons e es ih =>
    intro seen
    by_cases hc : getLink e = "" ∨ getLink e ∈ seen
    · rw [gnttAux, if_pos hc]
      exact (ih seen).trans (List.sublist_cons_self _ _)
    · rw [gnttAux, if_neg hc]
      exact List.Sublist.cons₂ _ (ih _)

/-- First occurrence wins: every emitted row is built from the first
considered entry bearing its link. -/
theorem gnttAux_find (off : Int) (l : List Entry) :
    ∀ seen r, r ∈ gnttAux off seen l →
      ∃ e, l.find? (fun e2 => getLink e2 == r.link) = some e ∧ r = mkRow off e := by
  induction l with
  | nil => intro seen r h; simp [gnttAux] at h
  | cons e es ih =>
    intro seen r h
    by_cases hc : getLink e = "" ∨ getLink e ∈ seen
    · rw [gnttAux, if_pos hc] at h
      have hr := gnttAux_link_prop off es seen r h
      have hne : ¬ ((getLink e == r.link) = true) := by
        rw [beq_iff_eq]
        rcases hc with hc | hc
        · exact fun he => hr.2 (he ▸ hc)
        · exact fun he => hr.1 (he ▸ hc)
      have hstep : List.find? (fun e2 => getLink e2 == r.link) (e :: es) =
          List.find? (fun e2 => getLink e2 == r.link) es :=
        List.find?_cons_of_neg es hne
      rw [hstep]
      exact ih seen r h
    · rw [gnttAux, if_neg hc] at h
      rcases List.mem_cons.mp h with h1 | h2
      · subst h1
        refine ⟨e, ?_, rfl⟩
        have hp : (getLink e == (mkRow off e).link) = true := by
          rw [mkRow_link]
          exact beq_self_eq_true _
        exact List.find?_cons_of_pos es hp
      · have hr := gnttAux_link_prop off es (getLink e :: seen) r h2
        have hne : ¬ ((getLink e == r.link) = true) := by
          rw [beq_iff_eq]
          exact fun he => hr.1 (List.mem_cons.mpr (Or.inl he.symm))
        have hstep : List.find? (fun e2 => getLink e2 == r.link) (e :: es) =
            List.find? (fun e2 => getLink e2 == r.link) es :=
          List.find?_cons_of_neg es hne
        rw [hstep]
        exact ih _ r h2

/-- Nothing else is dropped: a considered entry with a non-empty link always
contributes its link, either because it was already seen or through an
emitted row. -/
theorem gnttAux_complete (off : Int) (l : List Entry) :
    ∀ seen e, e ∈ l → getLink e ≠ "" →
      getLink e ∈ seen ∨ getLink e ∈ (gnttAux off seen l).map Row.link := by
  induction l with
  | nil => intro seen e h; simp at h
  | cons e0 es ih =>
    intro seen e hmem hne
    by_cases hc : getLink e0 = "" ∨ getLink e0 ∈ seen
    · rw [gnttAux, if_pos hc]
      rcases List.mem_cons.mp hmem with h1 | h2
      · subst h1
        rcases hc with hc | hc
        · exact absurd hc hne
        · exact Or.inl hc
      · exact ih seen e h2 hne
    · rw [gnttAux, if_neg hc]
      rcases List.mem_cons.mp hmem with h1 | h2
      · subst h1
        refine Or.inr ?_
        simp only [List.map_cons, mkRow_link]
        exact List.mem_cons_self _ _
      · rcases ih (getLink e0 :: seen) e h2 hne with hs | hr
        · rcases List.mem_cons.mp hs with h3 | h4
          · refine Or.inr ?_
            simp only [List.map_cons, mkRow_link]
            rw [h3]
            exact List.mem_cons_self _ _
          · exact Or.inl h4
        · refine Or.inr ?_
          simp only [List.map_cons]
          exact List.mem_cons_of_mem _ hr

/-- Claim C2 counterexample: for the non-empty place string `"x "` the claim
fails — `build_query` strips the place before inserting it, so `"x "` does
not appear verbatim in the first parenthesized group; the group holds the
stripped `"x"` instead. -/
theorem claim2_cex :
    build_query "x " ≠ "(x ) AND (" ++ EVENT_TERMS ++ ")" ∧
    build_query "x " = "(x) AND (" ++ EVENT_TERMS ++ ")" := by
  constructor
  · decide
  · rfl

/-- Claim C2 (amended): for every place string `p` that is already stripped,
`build_query p` is exactly `(p) AND (d)` where `d` is the fixed hardcoded
disjunction, equal to the spec's eight event terms joined by `" OR "`; in
general the first group holds `pyStrip p`, not `p`. -/
theorem claim2_thm (p : String) (hp : pyStrip p = p) :
    build_query p = "(" ++ p ++ ") AND (" ++ EVENT_TERMS ++ ")" ∧
    EVENT_TERMS = String.intercalate " OR " specEventTermsList ∧
    specEventTermsList.length = 8 := by
  refine ⟨?_, by decide, rfl⟩
  show "(" ++ pyStrip p ++ ") AND (" ++ EVENT_TERMS ++ ")" = _
  rw [hp]

/-- Claim C2 witness: the amended statement evaluated at the stripped place
`"渋谷駅"`. -/
theorem claim2_witness :
    pyStrip "渋谷駅" = "渋谷駅" ∧
    (build_query "渋谷駅" = "(" ++ "渋谷駅" ++ ") AND (" ++ EVENT_TERMS ++ ")" ∧
     EVENT_TERMS = String.intercalate " OR " specEventTermsList ∧
     specEventTermsList.length = 8) :=
  ⟨by decide, claim2_thm "渋谷駅" (by decide)⟩

/-- Claim C3: for every place and every request instant, the URL `q_to_tb`
builds (with the `add` parameter at its default `""`, as the page calls it)
is exactly the spec's template
`https://news.google.com/rss/search?q=after:<dateFrom>+before:<dateTo>+<url-encoded boolean expression>&hl=ja&gl=JP&ceid=JP:ja`
with `dateFrom` the JST day before the request day, `dateTo` the JST day
after it, both date-only, and the boolean expression percent-encoded. -/
theorem claim3_thm (off : Int) (feed : String → List Entry) (now : Int) (place : String) :
    (q_to_tb off feed now place "").rss_url =
      specRequestUrl (dayToIso (jstDay now - 1)) (dayToIso (jstDay now + 1))
        (build_query place) := by
  have h1 : (q_to_tb off feed now place "").rss_url =
      specRequestUrl (xdaysago now 1) (xdaysago now (-1)) (build_query place) ++ "" := rfl
  have h2 : jstDay now - -1 = jstDay now + 1 := by omega
  rw [h1, string_append_empty]
  simp only [xdaysago, h2]

/-- Claim C4: the two dates of the feed query are the JST calendar day
before and after the request instant, and any two requests issued on the
same JST calendar day produce identical `q_to_tb` results — the dates are a
function of the request's own clock reading only (nothing is cached). -/
theorem claim4_thm (off now now' : Int) (feed : String → List Entry) (place add : String)
    (h : jstDay now' = jstDay now) :
    xdaysago now 1 = dayToIso (jstDay now - 1) ∧
    xdaysago now (-1) = dayToIso (jstDay now + 1) ∧
    q_to_tb off feed now' place add = q_to_tb off feed now place add := by
  refine ⟨rfl, ?_, ?_⟩
  · simp only [xdaysago]
    congr 1
  · simp only [q_to_tb, xdaysago, h]

/-- Claim C4 witness: one hour past the epoch is the same JST day as the
epoch itself, and the two calls agree. -/
theorem claim4_witness :
    jstDay 3600 = jstDay 0 ∧
    (xdaysago 0 1 = dayToIso (jstDay 0 - 1) ∧
     xdaysago 0 (-1) = dayToIso (jstDay 0 + 1) ∧
     q_to_tb 0 (fun _ => []) 3600 "x" "" = q_to_tb 0 (fun _ => []) 0 "x" "") :=
  ⟨by decide, claim4_thm 0 0 3600 (fun _ => []) "x" "" (by decide)⟩

/-- A feed entry whose `published_parsed` struct reads 2024-06-15 00:00:00,
which feedparser supplies in UTC. -/
def entUtc0 : Entry := ⟨some "l1", some "t", none, some ⟨2024, 6, 15, 0, 0, 0⟩⟩

/-- Claim C6 (code bug): the code converts `published_parsed` with
`time.mktime`, which reads the struct in the process's LOCAL timezone, not
UTC.  On a server whose local zone is JST (`off = jstOffset`) the displayed
time is the struct's own fields, `2024-06-15 00:00`, whereas the claimed
UTC interpretation (which the code only realizes when the local zone is
UTC, `off = 0`) displays `2024-06-15 09:00`. -/
theorem claim6_thm :
    (mkRow jstOffset entUtc0).published_jst = "2024-06-15 00:00" ∧
    (mkRow 0 entUtc0).published_jst = "2024-06-15 09:00" ∧
    ("2024-06-15 00:00" : String) ≠ "2024-06-15 09:00" := by
  refine ⟨by decide, by decide, by decide⟩

/-- An entry with no `source` attribute at all. -/
def entNoSource : Entry := ⟨some "l1", some "t", none, none⟩

/-- Claim C8 counterexample: for an entry with a missing source descriptor,
`e.get("source", {})` defaults to the empty dict and `{}.get("title")` is
Python `None` — not the empty string the claim asserts. -/
theorem claim8_cex :
    (mkRow 0 entNoSource).source = none ∧ (mkRow 0 entNoSource).source ≠ some "" := by
  exact ⟨rfl, by decide⟩

/-- Claim C8 (amended): the source field is the nested title when the
descriptor is a dict carrying one; it is Python `None` (absent) when the
descriptor is missing or is a dict without a title; it is the empty string
only when a descriptor is present but not dict-shaped.  All cases are
absorbed silently. -/
theorem claim8_thm (off : Int) (e : Entry) :
    (e.source = none → (mkRow off e).source = none) ∧
    (∀ t, e.source = some (.dict t) → (mkRow off e).source = t) ∧
    (e.source = some .nondict → (mkRow off e).source = some "") := by
  refine ⟨?_, ?_, ?_⟩
  · intro h
    simp [mkRow, source_of, h]
  · intro t h
    simp [mkRow, source_of, h]
  · intro h
    simp [mkRow, source_of, h]

/-- Claim C8 witness: the amended statement evaluated on the entry with a
missing descriptor. -/
theorem claim8_witness :
    (mkRow 0 entNoSource).source = none := (claim8_thm 0 entNoSource).1 rfl

/-- Claim C9: when the submitted place is empty after stripping, the run
handler warns and stops; the outcome carries no URL, query or rows, and is
independent of the feed oracle, the clock and the row limit — the pipeline
(`build_query`, the fetch) is never consulted. -/
theorem claim9_thm (off : Int) (feed feed' : String → List Entry) (now now' : Int)
    (place : String) (max_rows max_rows' : Nat) (h : pyStrip place = "") :
    run_handler off feed now true place max_rows = .warned ∧
    run_handler off feed' now' true place max_rows' =
      run_handler off feed now true place max_rows := by
  constructor <;> simp [run_handler, h]

/-- Claim C9 witness: a whitespace-only place triggers the warning path. -/
theorem claim9_witness :
    pyStrip " " = "" ∧
    run_handler 0 (fun _ => []) 0 true " " 20 = .warned :=
  ⟨by decide, (claim9_thm 0 (fun _ => []) (fun _ => []) 0 0 " " 20 20 (by decide)).1⟩

/-- Claim C10: `q_to_tb` returns the deduplicated table truncated by
`.iloc[:20]` — a fixed intermediate cap applied after deduplication of the
(at most 50) considered entries — so the table, and hence the displayed
`df.head(max_rows)`, never exceeds 20 rows whatever `max_rows` is. -/
theorem claim10_thm (off : Int) (feed : String → List Entry) (now : Int)
    (place add : String) (max_rows : Nat) :
    (q_to_tb off feed now place add).df =
      (google_news_to_table off (feed (q_to_tb off feed now place add).rss_url) 50).take 20 ∧
    (q_to_tb off feed now place add).df.length ≤ 20 ∧
    ((q_to_tb off feed now place add).df.take max_rows).length ≤ 20 := by
  refine ⟨rfl, ?_, ?_⟩
  · simp [q_to_tb, List.length_take]
  · simp only [q_to_tb, List.length_take]
    omega

/-- Claim C5: the normalizer's result has pairwise-distinct, non-empty
links; its rows form a sublist (hence the same relative order) of the rows
of the considered entries; each row comes from the FIRST considered entry
bearing its link (first occurrence wins, exact string equality); and no
considered entry with a non-empty link goes missing. -/
theorem claim5_thm (off : Int) (entries : List Entry) (limit : Nat) :
    ((google_news_to_table off entries limit).map Row.link).Nodup ∧
    (∀ r ∈ google_news_to_table off entries limit, r.link ≠ "") ∧
    List.Sublist (google_news_to_table off entries limit)
      ((entries.take limit).map (mkRow off)) ∧
    (∀ r ∈ google_news_to_table off entries limit,
      ∃ e, (entries.take limit).find? (fun e2 => getLink e2 == r.link) = some e ∧
        r = mkRow off e) ∧
    (∀ e ∈ entries.take limit, getLink e ≠ "" →
      getLink e ∈ (google_news_to_table off entries limit).map Row.link) := by
  refine ⟨gnttAux_nodup off _ [], ?_, gnttAux_sublist off _ [], ?_, ?_⟩
  · intro r hr
    exact (gnttAux_link_prop off _ [] r hr).2
  · intro r hr
    exact gnttAux_find off _ [] r hr
  · intro e he hne
    rcases gnttAux_complete off _ [] e he hne with h | h
    · simp at h
    · exact h

/-- A feed with a duplicated link, an entry lacking a link, and a second
distinct link. -/
def dedupEntries : List Entry :=
  [⟨some "a", some "t1", none, none⟩,
   ⟨some "a", some "t2", none, none⟩,
   ⟨none, some "t3", none, none⟩,
   ⟨some "b", some "t4", none, none⟩]

/-- Claim C5 witness: the dedup properties evaluated on a concrete feed
containing a duplicate link and a linkless entry. -/
theorem claim5_witness :
    ((google_news_to_table 0 dedupEntries 50).map Row.link).Nodup ∧
    (∀ r ∈ google_news_to_table 0 dedupEntries 50, r.link ≠ "") ∧
    List.Sublist (google_news_to_table 0 dedupEntries 50)
      ((dedupEntries.take 50).map (mkRow 0)) ∧
    (∀ r ∈ google_news_to_table 0 dedupEntries 50,
      ∃ e, (dedupEntries.take 50).find? (fun e2 => getLink e2 == r.link) = some e ∧
        r = mkRow 0 e) ∧
    (∀ e ∈ dedupEntries.take 50, getLink e ≠ "" →
      getLink e ∈ (google_news_to_table 0 dedupEntries 50).map Row.link) :=
  claim5_thm 0 dedupEntries 50

/-- Claim C7: an entry with no parseable published time yields an empty
conversion result (the total function `_published_to_jst` returns `none`
rather than failing), the corresponding row carries the empty timestamp
string, and — provided its link is non-empty and considered — the entry is
still emitted instead of being dropped. -/
theorem claim7_thm (off : Int) (entries : List Entry) (limit : Nat) (e : Entry)
    (hp : e.published = none) :
    _published_to_jst off e = none ∧
    (mkRow off e).published_jst = "" ∧
    (e ∈ entries.take limit → getLink e ≠ "" →
      getLink e ∈ (google_news_to_table off entries limit).map Row.link) := by
  refine ⟨?_, ?_, ?_⟩
  · simp [_published_to_jst, hp]
  · simp [mkRow, _published_to_jst, hp]
  · intro hm hne
    rcases gnttAux_complete off _ [] e hm hne with h | h
    · simp at h
    · exact h

/-- An entry carrying a link but no `published_parsed`. -/
def entNoPub : Entry := ⟨some "l7", some "t", none, none⟩

/-- Claim C7 witness: the robustness statement evaluated on a concrete
entry without a published time, inside a one-entry feed. -/
theorem claim7_witness :
    _published_to_jst 0 entNoPub = none ∧
    (mkRow 0 entNoPub).published_jst = "" ∧
    getLink entNoPub ∈ (google_news_to_table 0 [entNoPub] 50).map Row.link := by
  have h := claim7_thm 0 [entNoPub] 50 entNoPub rfl
  exact ⟨h.1, h.2.1, h.2.2 (by decide) (by decide)⟩

/-- The list of rows the page displays, projected from the handler
outcome (empty when nothing is displayed). -/
def shownRows : UIOutcome → List Row
  | .results shown _ _ => shown
  | _ => []

/-- Twenty-five entries with pairwise distinct non-empty links. -/
def manyEntries : List Entry :=
  (List.range 25).map (fun i => ⟨some ("l" ++ toString i), some "t", none, none⟩)

/-- Claim C1 counterexample: with `rowLimit = 25 ∈ [10,50]` and a feed of 25
unique-link entries, the display has 20 rows, not 25 — `q_to_tb` interposes
a fixed `.iloc[:20]` cap between deduplication and the `rowLimit`
truncation. -/
theorem claim1_cex :
    (shownRows (run_handler 0 (fun _ => manyEntries) 0 true "x" 25)).length = 20 ∧
    (20 : Nat) ≠ 25 := by
  exact ⟨by decide, by decide⟩

/-- Claim C1 (amended): the ResultSet considers at most `limit = 50` feed
entries, deduplicates, caps the table to 20 rows (`.iloc[:20]`), and then
truncates to `rowLimit` for display; consequently the "exactly `rowLimit`
rows" guarantee holds for `rowLimit ∈ [10,20]` (not all of `[10,50]`)
whenever the feed yields at least `rowLimit` unique-link entries. -/
theorem claim1_thm (off now : Int) (feed : String → List Entry) (place : String)
    (rowLimit : Nat) (h10 : 10 ≤ rowLimit) (h20 : rowLimit ≤ 20)
    (hu : rowLimit ≤
      (google_news_to_table off (feed (q_to_tb off feed now place "").rss_url) 50).length) :
    (q_to_tb off feed now place "").df =
      (google_news_to_table off (feed (q_to_tb off feed now place "").rss_url) 50).take 20 ∧
    ((q_to_tb off feed now place "").df.take rowLimit).length = rowLimit := by
  refine ⟨rfl, ?_⟩
  have hdf : (q_to_tb off feed now place "").df =
      (google_news_to_table off (feed (q_to_tb off feed now place "").rss_url) 50).take 20 :=
    rfl
  rw [hdf, List.length_take, List.length_take]
  omega

/-- Fifteen entries with pairwise distinct non-empty links. -/
def fifteenEntries : List Entry :=
  (List.range 15).map (fun i => ⟨some ("l" ++ toString i), some "t", none, none⟩)

/-- Claim C1 witness: the spec's own example — `rowLimit = 10` against a
feed of 15 unique-link entries displays exactly 10 rows. -/
theorem claim1_witness :
    (10 : Nat) ≤
      (google_news_to_table 0
        ((fun _ => fifteenEntries) (q_to_tb 0 (fun _ => fifteenEntries) 0 "x" "").rss_url)
        50).length ∧
    ((q_to_tb 0 (fun _ => fifteenEntries) 0 "x" "").df.take 10).length = 10 :=
  ⟨by decide,
   (claim1_thm 0 0 (fun _ => fifteenEntries) "x" 10 (by decide) (by decide) (by decide)).2⟩

end Locationews
